import Mathlib

/-!
Shallow embedding of the conversational agent runtime in `ai_agent.py`
(class `Agent` together with the built-in tools `GetDatetimeTool`,
`GetTotalContextTokensTool`, `ClearContextTool`).

Modelling conventions:
* a chat message (a Python dict) is the structure `Message`; an absent
  `tool_calls` key is the empty list, absent `tool_call_id` / `name`
  keys are `none`;
* the mutable fields of `Agent` that the claims touch
  (`_max_tool_call_iterations`, `_max_context_tokens`, `_context`,
  `_total_context_tokens`) form `AgentState`;
* a tool implementation (`tool.call(self, **kwargs)`) is a function
  `AgentState → Args → AgentState × Except String String`: it may mutate
  the agent (only `ClearContextTool` does) and either returns a string or
  raises (`Except.error` carries `str(e)`);
* the tool registry `self._tools` (a dict keyed by tool name) is an
  association list passed alongside the state;
* `json.loads` on a tool call's argument string is an oracle parameter
  `parse : String → Except String Args`, `Except.error` being
  `json.JSONDecodeError` with message `str(e)`;
* the chat-completion endpoint is modelled by the list of responses it
  will return, consumed one per round trip; an exhausted list stands for
  a completion-endpoint failure, which the code does not catch
  (`Except.error` at the top level of `send_message`);
* `asyncio.gather` over the scheduled tool tasks is modelled by executing
  the scheduled invocations sequentially in a given completion order
  (`executeScheduled`); the schedule order itself is request order, as in
  the source.
-/

/-- `tool_call.function` of the OpenAI API: a tool name and the raw
(unparsed) JSON argument string. -/
structure ToolCallFunction where
  name : String
  arguments : String
deriving DecidableEq

/-- One requested tool invocation (`tool_call` in the source): a call id
and the function payload. -/
structure ToolCall where
  id : String
  function : ToolCallFunction
deriving DecidableEq

/-- A chat message as the Python code builds it: a dict with keys
`role`, `content`, optionally `tool_call_id`, `name` and `tool_calls`. -/
structure Message where
  role : String
  content : String
  tool_call_id : Option String
  name : Option String
  tool_calls : List ToolCall
deriving DecidableEq

/-- The agent state: the fields of `Agent` that the conversation logic
reads and writes (`__init__` sets `_context = []` and
`_total_context_tokens = 0`). `totalContextTokens` is an `Int` because
`trim_context` subtracts estimates from it and Python integers may go
negative. -/
structure AgentState where
  maxToolCallIterations : Nat
  maxContextTokens : Int
  context : List Message
  totalContextTokens : Int
deriving DecidableEq

/-- Parsed keyword arguments of a tool call (the dict produced by
`json.loads`); values are kept opaque as strings. -/
def Args : Type := List (String × String)

instance : DecidableEq Args := by
  unfold Args
  infer_instance

/-- A tool implementation: receives the agent and the keyword arguments,
may mutate the agent, and returns text or raises. -/
def ToolImpl : Type := AgentState → Args → AgentState × Except String String

/-- The tool registry `self._tools`: tool name to implementation. -/
def Registry : Type := List (String × ToolImpl)

/-- `self._context.append(m)`. -/
def appendCtx (st : AgentState) (m : Message) : AgentState :=
  { st with context := st.context ++ [m] }

/-- The user message appended at the top of `send_message`. -/
def userMessage (content : String) : Message :=
  ⟨"user", content, none, none, []⟩

/-- The assistant message dict built in the loop of `send_message`:
content is `assistant_message.content or ""`, and the `tool_calls` key is
present exactly when the list is nonempty. -/
def assistantMessage (content : String) (tool_calls : List ToolCall) : Message :=
  ⟨"assistant", content, none, none, tool_calls⟩

/-- The tool message dict appended by `send_message` and
`_call_tool_safe`: role `tool`, the originating call id, the tool name
and the content. -/
def toolMessage (tool_call_id fname content : String) : Message :=
  ⟨"tool", content, some tool_call_id, some fname, []⟩

/-- The system message dict built by `set_system_message`. -/
def systemMessage (content : String) : Message :=
  ⟨"system", content, none, none, []⟩

/-- `Agent.reset_context`: `self._context = []` and
`self._total_context_tokens = 0`, executed back to back with no
suspension point in between. -/
def reset_context (st : AgentState) : AgentState :=
  { st with context := [], totalContextTokens := 0 }

/-- The `while` loop of `Agent.trim_context`, expressed on the part of
the log after position 0 (the loop only ever inspects and pops position
1, so position 0 is never touched). Each iteration: if the running total
exceeds the ceiling and the log still has more than one message, look at
position 1; a system message there stops the loop, otherwise it is
removed and the total decreases by `len(content) // 4`. -/
def trimTail (maxTok : Int) : List Message → Int → List Message × Int
  | [], total => ([], total)
  | m1 :: rest, total =>
    if total > maxTok then
      if m1.role = "system" then (m1 :: rest, total)
      else trimTail maxTok rest (total - ((m1.content.length / 4 : Nat) : Int))
    else (m1 :: rest, total)

/-- `Agent.trim_context`: when the log is empty the guard
`len(self._context) > 1` is false and nothing happens; otherwise the
head stays and the loop trims from position 1. -/
def trim_context (st : AgentState) : AgentState :=
  match st.context with
  | [] => st
  | m0 :: rest =>
    let p := trimTail st.maxContextTokens rest st.totalContextTokens
    { st with context := m0 :: p.1, totalContextTokens := p.2 }

/-- `Agent.set_system_message`: replace the content of a system message
already at position 0, otherwise prepend a fresh system message. -/
def set_system_message (st : AgentState) (message : String) : AgentState :=
  match st.context with
  | m0 :: rest =>
    if m0.role = "system" then
      { st with context := { m0 with content := message } :: rest }
    else
      { st with context := systemMessage message :: m0 :: rest }
  | [] => { st with context := [systemMessage message] }

/-- How `_call_tool_safe` turns the invocation outcome into message
content: the stringified result on success, `"Error: " + str(e)` when the
tool raised. -/
def toolContent : Except String String → String
  | .ok s => s
  | .error e => "Error: " ++ e

/-- `Agent._call_tool_safe`: run the tool under a `try/except`, then
append exactly one tool message carrying the originating call id, the
tool name and the outcome. -/
def call_tool_safe (impl : ToolImpl) (args : Args) (tool_call_id fname : String)
    (st : AgentState) : AgentState :=
  let r := impl st args
  appendCtx r.1 (toolMessage tool_call_id fname (toolContent r.2))

/-- One invocation scheduled for the parallel batch of a round: the
resolved implementation, the parsed arguments, and the originating call's
id and tool name. -/
structure Scheduled where
  impl : ToolImpl
  args : Args
  id : String
  fname : String

/-- The per-`tool_call` dispatch of `send_message` (the body of the
`for tool_call in assistant_message.tool_calls` loop): parse the argument
string; on a parse error append a `tool` message reporting it and
schedule nothing; on an unknown tool name append a `tool` message
reporting it and schedule nothing; otherwise add the invocation to the
batch. -/
def processToolCall (tools : Registry) (parse : String → Except String Args)
    (acc : AgentState × List Scheduled) (tc : ToolCall) : AgentState × List Scheduled :=
  match parse tc.function.arguments with
  | .error e =>
    (appendCtx acc.1 (toolMessage tc.id tc.function.name ("Error parsing arguments: " ++ e)),
      acc.2)
  | .ok args =>
    match tools.lookup tc.function.name with
    | some impl => (acc.1, acc.2 ++ [⟨impl, args, tc.id, tc.function.name⟩])
    | none =>
      (appendCtx acc.1
        (toolMessage tc.id tc.function.name ("Unknown tool: " ++ tc.function.name)),
        acc.2)

/-- `asyncio.gather(*tool_tasks)`: every scheduled invocation runs to
completion through `_call_tool_safe`; the list order is the completion
order in which the result messages reach the log. -/
def executeScheduled (batch : List Scheduled) (st : AgentState) : AgentState :=
  batch.foldl (fun s t => call_tool_safe t.impl t.args t.id t.fname s) st

/-- One tool-call round of `send_message` after the assistant message is
appended: dispatch every requested call in request order, then execute
the scheduled batch. -/
def runRound (tools : Registry) (parse : String → Except String Args)
    (st : AgentState) (calls : List ToolCall) : AgentState :=
  let p := calls.foldl (processToolCall tools parse) (st, [])
  executeScheduled p.2 p.1

/-- One chat-completion response as `send_message` consumes it:
`choices[0].message.content`, `choices[0].message.tool_calls` (the empty
list standing for `None`), and `usage.total_tokens`. -/
structure Response where
  content : Option String
  tool_calls : List ToolCall
  total_tokens : Int
deriving DecidableEq

/-- Step b of each round: `self._total_context_tokens =
response.usage.total_tokens`, the authoritative snapshot that overwrites
the running estimate. -/
def roundTokenUpdate (st : AgentState) (r : Response) : AgentState :=
  { st with totalContextTokens := r.total_tokens }

/-- The `while iteration < self._max_tool_call_iterations` loop of
`send_message`, with `fuel` the remaining iteration budget and `last` the
content of the last assistant message produced so far (`None` on entry).
Each iteration consumes one completion response, overwrites the token
estimate, trims, appends the assistant message, and either stops (no tool
calls) or runs the tool round and continues. The returned `Nat` counts
the completion round trips performed. An exhausted response list models
the uncaught failure of the completion request. -/
def sendLoop (tools : Registry) (parse : String → Except String Args) :
    Nat → List Response → Option String → AgentState →
    Except String (String × AgentState × Nat)
  | 0, _, last, st => .ok (last.getD "", st, 0)
  | fuel + 1, responses, _last, st =>
    match responses with
    | [] => .error "chat completion request failed"
    | r :: rest =>
      let st1 := trim_context (roundTokenUpdate st r)
      let content := (r.content).getD ""
      let st2 := appendCtx st1 (assistantMessage content r.tool_calls)
      if r.tool_calls.isEmpty then .ok (content, st2, 1)
      else
        match sendLoop tools parse fuel rest (some content) (runRound tools parse st2 r.tool_calls) with
        | .ok (ans, st3, n) => .ok (ans, st3, n + 1)
        | .error e => .error e

/-- `Agent.send_message`: append the user message, then run the
iteration loop with the full budget. Returns the final answer, the final
agent state, and the number of completion round trips. -/
def send_message (tools : Registry) (parse : String → Except String Args)
    (responses : List Response) (st : AgentState) (message : String) :
    Except String (String × AgentState × Nat) :=
  sendLoop tools parse st.maxToolCallIterations responses none
    (appendCtx st (userMessage message))

/-- `GetDatetimeTool.call`: returns `datetime.now().isoformat()`, the
clock being the parameter `now`. The class method takes no keyword
arguments, so a nonempty argument dict raises `TypeError` before the
body runs. -/
def GetDatetimeTool.call (now : String) : ToolImpl := fun st args =>
  match args with
  | [] => (st, .ok now)
  | _ => (st, .error "call() got an unexpected keyword argument")

/-- `GetTotalContextTokensTool.call`: returns
`str(agent._total_context_tokens)`; no keyword arguments accepted. -/
def GetTotalContextTokensTool.call : ToolImpl := fun st args =>
  match args with
  | [] => (st, .ok (toString st.totalContextTokens))
  | _ => (st, .error "call() got an unexpected keyword argument")

/-- `ClearContextTool.call`: `agent.reset_context()` then
`"Context cleared."`; no keyword arguments accepted. -/
def ClearContextTool.call : ToolImpl := fun st args =>
  match args with
  | [] => (reset_context st, .ok "Context cleared.")
  | _ => (st, .error "call() got an unexpected keyword argument")

/-- The registry built in `Agent.__init__`: the three built-in tools
keyed by their names. -/
def builtinTools (now : String) : Registry :=
  [("get_datetime", GetDatetimeTool.call now),
   ("get_total_context_tokens", GetTotalContextTokensTool.call),
   ("clear_context", ClearContextTool.call)]

/-- The agent state right after `Agent.__init__`: empty log, zero token
estimate. -/
def initialAgent (maxIter : Nat) (maxTok : Int) : AgentState :=
  ⟨maxIter, maxTok, [], 0⟩

/-- The operations on the conversation state that the code performs:
appending a message (`self._context.append`), `trim_context`, and
`set_system_message`. -/
inductive AgentOp where
  | append (m : Message)
  | trim
  | setSystem (s : String)

/-- Run one conversation-state operation. -/
def runOp (st : AgentState) : AgentOp → AgentState
  | .append m => appendCtx st m
  | .trim => trim_context st
  | .setSystem s => set_system_message st s

/-- Run a sequence of conversation-state operations from left to right. -/
def runOps (ops : List AgentOp) (st : AgentState) : AgentState :=
  ops.foldl runOp st

/-- The content of the last assistant message produced by the completion
responses consumed so far (`last` being the content preceding them). -/
def lastAnswer (responses : List Response) (last : Option String) : String :=
  match responses.getLast? with
  | some r => (r.content).getD ""
  | none => last.getD ""

/-- A tool implementation that neither mutates the agent state nor lets
its outcome depend on it — the premise under which concurrent completion
orders are interchangeable. -/
def StateOblivious (impl : ToolImpl) : Prop :=
  ∀ st st' args, (impl st args).1 = st ∧ (impl st args).2 = (impl st' args).2

/-- The tool message a state-oblivious scheduled invocation produces,
read off at a fixed reference state. -/
def schedMessage (st : AgentState) (t : Scheduled) : Message :=
  toolMessage t.id t.fname (toolContent ((t.impl st t.args).2))

/-- Oldest message of the trim scenario: 32 characters of content, so an
estimated size of `32 / 4 = 8`. -/
def trimMsgA : Message := ⟨"user", String.mk (List.replicate 32 'a'), none, none, []⟩

/-- Middle message of the trim scenario, estimated size 8. -/
def trimMsgB : Message := ⟨"assistant", String.mk (List.replicate 32 'b'), none, none, []⟩

/-- Most recent message of the trim scenario, estimated size 8. -/
def trimMsgC : Message := ⟨"user", String.mk (List.replicate 32 'c'), none, none, []⟩

/-- The trim scenario's agent state: ceiling 10, three non-system
messages of estimated size 8 each, `total_tokens = 24`. -/
def trimScenarioState : AgentState := ⟨5, 10, [trimMsgA, trimMsgB, trimMsgC], 24⟩

/-- `json.loads` restricted to the empty JSON object: `"\x7b\x7d"` parses
to the empty keyword dict, anything else raises `JSONDecodeError`. -/
def parseEmptyObject : String → Except String Args := fun s =>
  if s = "\x7b\x7d" then .ok [] else .error "Expecting value: line 1 column 1 (char 0)"

/-- A completion response requesting one call to the unregistered tool
name `ghost`. -/
def ghostResponse : Response :=
  ⟨some "calling ghost", [⟨"call_1", ⟨"ghost", "\x7b\x7d"⟩⟩], 3⟩

/-- A completion response with no tool calls, ending the turn. -/
def doneResponse : Response := ⟨some "done", [], 7⟩

/-- The scheduled invocation of `clear_context` used in the
order-dependence counterexample (call id `c1`). -/
def schedClear : Scheduled := ⟨ClearContextTool.call, [], "c1", "clear_context"⟩

/-- The scheduled invocation of `get_total_context_tokens` used in the
order-dependence counterexample (call id `c2`). -/
def schedTot : Scheduled := ⟨GetTotalContextTokensTool.call, [], "c2", "get_total_context_tokens"⟩

/-- State entering the order-dependence counterexample round: one user
message in the log and a token estimate of 24. -/
def stateC8 : AgentState := ⟨5, 4000, [userMessage "hi"], 24⟩

/-- A tool implementation returning a fixed string, used as a
state-oblivious stub. -/
def constImpl (s : String) : ToolImpl := fun st _ => (st, .ok s)

/-- A tool implementation that always raises, with `str(e) = "boom"`. -/
def boomImpl : ToolImpl := fun st _ => (st, .error "boom")

/-- A small concrete agent state used by witnesses: a system message and
one user message. -/
def witnessState : AgentState :=
  ⟨5, 100, [systemMessage "old", userMessage "u"], 7⟩

/-- Completion responses that request a tool call on every round: two
rounds, each invoking `clear_context` with empty arguments. -/
def busyResponses : List Response :=
  [⟨some "first", [⟨"b1", ⟨"clear_context", "\x7b\x7d"⟩⟩], 11⟩,
   ⟨some "second", [⟨"b2", ⟨"clear_context", "\x7b\x7d"⟩⟩], 13⟩]

/-- The operation sequence exercised by the C2 witness: set a system
message, append a user message, trim, then replace the system message. -/
def witnessOps : List AgentOp :=
  [.setSystem "be brief", .append (userMessage "hi"), .trim, .setSystem "new rules"]

/-- A scheduled state-oblivious stub invocation returning `"A"`. -/
def stubSchedA : Scheduled := ⟨constImpl "A", [], "w1", "stub_a"⟩

/-- A scheduled state-oblivious stub invocation returning `"B"`. -/
def stubSchedB : Scheduled := ⟨constImpl "B", [], "w2", "stub_b"⟩

/-- A tool-call round's scheduled batch in which `clear_context` runs
between two `get_total_context_tokens` invocations, all with empty
keyword arguments. -/
def clearRoundBatch (c0 c1 c2 : String) : List Scheduled :=
  [⟨GetTotalContextTokensTool.call, [], c0, "get_total_context_tokens"⟩,
   ⟨ClearContextTool.call, [], c1, "clear_context"⟩,
   ⟨GetTotalContextTokensTool.call, [], c2, "get_total_context_tokens"⟩]

/-- C1, claim as stated is false: in the scenario (ceiling 10, three
non-system messages of estimated size 8, `total_tokens = 24`) `trim()`
does NOT evict the oldest two messages — it pops position 1 twice, so the
middle and the most recent message are evicted and the oldest message is
the only survivor. -/
theorem c1_trim_scenario_refuted :
    (trim_context trimScenarioState).context = [trimMsgA]
    ∧ trimMsgC ∉ (trim_context trimScenarioState).context
    ∧ trimMsgB ∉ (trim_context trimScenarioState).context := by
  decide

/-- C1 amended: in the scenario, `trim()` evicts exactly the two
messages at positions 1 and 2 (the second-oldest and the most recent),
afterwards `total_tokens = 8 ≤ 10`, and the oldest message remains as the
only message in the log. -/
theorem c1_trim_scenario_amended :
    (trim_context trimScenarioState).context = [trimMsgA]
    ∧ (trim_context trimScenarioState).totalContextTokens = 8
    ∧ (trim_context trimScenarioState).totalContextTokens
        ≤ trimScenarioState.maxContextTokens := by
  decide

/-- C7: `reset_context` leaves an empty log and a zero token estimate.
The two assignments execute back to back on the single event-loop thread
with no suspension point between them, which the model reflects as one
state transition — no state with only one of the two cleared exists. -/
theorem c7_reset_context (st : AgentState) :
    (reset_context st).context = [] ∧ (reset_context st).totalContextTokens = 0 := by
  constructor <;> rfl

/-- C5: `_call_tool_safe` appends exactly one tool message per
invocation — on success its content is the stringified result, on any
exception `"Error: "` followed by the exception message — and in both
cases the message carries the originating call's id and tool name. The
function is total: a failing invocation still produces its message and
never aborts the round. -/
theorem c5_call_tool_safe (impl : ToolImpl) (args : Args) (cid nm : String)
    (st : AgentState) :
    (∀ s, (impl st args).2 = .ok s →
      call_tool_safe impl args cid nm st =
        appendCtx (impl st args).1 (toolMessage cid nm s))
    ∧ (∀ e, (impl st args).2 = .error e →
      call_tool_safe impl args cid nm st =
        appendCtx (impl st args).1 (toolMessage cid nm ("Error: " ++ e))) := by
  constructor
  · intro s h
    simp [call_tool_safe, h, toolContent]
  · intro e h
    simp [call_tool_safe, h, toolContent]

/-- Witness for C5: a succeeding and a raising tool implementation each
yield exactly one tool message with the specified content. -/
theorem c5_call_tool_safe_witness :
    call_tool_safe (constImpl "fine") [] "i1" "t1" witnessState =
      appendCtx witnessState (toolMessage "i1" "t1" "fine")
    ∧ call_tool_safe boomImpl [] "i2" "t2" witnessState =
      appendCtx witnessState (toolMessage "i2" "t2" "Error: boom") :=
  ⟨(c5_call_tool_safe (constImpl "fine") [] "i1" "t1" witnessState).1 "fine" rfl,
   (c5_call_tool_safe boomImpl [] "i2" "t2" witnessState).2 "boom" rfl⟩

/-- C6: in the per-call dispatch of `send_message`, a call whose
argument string fails to parse, or whose tool name is not in the
registry, appends exactly one tool message reporting the failure and
leaves the scheduled batch unchanged — and since only the scheduled
batch is ever executed, the underlying tool implementation is never
invoked; the result is the same for every choice of registry
implementations. -/
theorem c6_failed_calls_never_invoke (tools : Registry)
    (parse : String → Except String Args) (st : AgentState)
    (batch : List Scheduled) (tc : ToolCall) :
    (∀ e, parse tc.function.arguments = .error e →
      processToolCall tools parse (st, batch) tc =
        (appendCtx st
          (toolMessage tc.id tc.function.name ("Error parsing arguments: " ++ e)),
         batch))
    ∧ (∀ args, parse tc.function.arguments = .ok args →
        tools.lookup tc.function.name = none →
      processToolCall tools parse (st, batch) tc =
        (appendCtx st
          (toolMessage tc.id tc.function.name ("Unknown tool: " ++ tc.function.name)),
         batch)) := by
  constructor
  · intro e h
    simp [processToolCall, h]
  · intro args h hl
    simp [processToolCall, h, hl]

/-- Witness for C6: with the empty-object parser and the built-in
registry, a call with malformed arguments and a call to an unregistered
name each append one reporting message and schedule nothing. -/
theorem c6_failed_calls_never_invoke_witness :
    processToolCall (builtinTools "T") parseEmptyObject (witnessState, [])
        ⟨"p1", ⟨"clear_context", "not json"⟩⟩ =
      (appendCtx witnessState
        (toolMessage "p1" "clear_context"
          "Error parsing arguments: Expecting value: line 1 column 1 (char 0)"), [])
    ∧ processToolCall (builtinTools "T") parseEmptyObject (witnessState, [])
        ⟨"p2", ⟨"ghost", "\x7b\x7d"⟩⟩ =
      (appendCtx witnessState (toolMessage "p2" "ghost" "Unknown tool: ghost"), []) :=
  ⟨(c6_failed_calls_never_invoke (builtinTools "T") parseEmptyObject witnessState []
      ⟨"p1", ⟨"clear_context", "not json"⟩⟩).1
      "Expecting value: line 1 column 1 (char 0)" rfl,
   (c6_failed_calls_never_invoke (builtinTools "T") parseEmptyObject witnessState []
      ⟨"p2", ⟨"ghost", "\x7b\x7d"⟩⟩).2 [] rfl rfl⟩

/-- C4, claim as stated is false: a turn in which the model requests the
unregistered tool name `ghost` raises nothing to the invoker — there is
no `UnknownToolError` anywhere in the code. `send_message` returns
normally (`Except.ok`, never `Except.error`), having appended one tool
message `"Unknown tool: ghost"` to the log instead. -/
theorem c4_unknown_tool_refuted :
    send_message (builtinTools "T") parseEmptyObject [ghostResponse, doneResponse]
        (initialAgent 5 4000) "hi" =
      .ok ("done",
        ⟨5, 4000,
          [userMessage "hi",
           assistantMessage "calling ghost" [⟨"call_1", ⟨"ghost", "\x7b\x7d"⟩⟩],
           toolMessage "call_1" "ghost" "Unknown tool: ghost",
           assistantMessage "done" []],
          7⟩,
        2) := by
  rfl

/-- C4 amended: a requested call to a tool name absent from the registry
does not raise; the round completes normally, the underlying tool is
never invoked (the result is independent of every registered
implementation), and exactly one tool message with content
`"Unknown tool: <name>"` is appended. -/
theorem c4_unknown_tool_amended (tools : Registry)
    (parse : String → Except String Args) (st : AgentState) (tc : ToolCall)
    (args : Args) (hp : parse tc.function.arguments = .ok args)
    (hl : tools.lookup tc.function.name = none) :
    runRound tools parse st [tc] =
      appendCtx st
        (toolMessage tc.id tc.function.name ("Unknown tool: " ++ tc.function.name)) := by
  simp [runRound, processToolCall, hp, hl, executeScheduled]

/-- Witness for C4 amended: the `ghost` call against the built-in
registry. -/
theorem c4_unknown_tool_amended_witness :
    runRound (builtinTools "T") parseEmptyObject witnessState
        [⟨"call_1", ⟨"ghost", "\x7b\x7d"⟩⟩] =
      appendCtx witnessState (toolMessage "call_1" "ghost" "Unknown tool: ghost") :=
  c4_unknown_tool_amended (builtinTools "T") parseEmptyObject witnessState
    ⟨"call_1", ⟨"ghost", "\x7b\x7d"⟩⟩ [] rfl rfl

/-- C9: `set_system_message` always leaves a message with role `system`
and the given content at position 0; if the prior log began with a
system message that message's content is replaced in place (its other
fields kept), otherwise a fresh system message is prepended; all other
messages and the remaining agent fields are unchanged, keeping their
relative order. -/
theorem c9_set_system_message (st : AgentState) (msg : String) :
    ((set_system_message st msg).context.head?.map
        (fun m => (m.role, m.content)) = some ("system", msg))
    ∧ (st.context = [] → (set_system_message st msg).context = [systemMessage msg])
    ∧ (∀ m0 rest, st.context = m0 :: rest → m0.role = "system" →
        (set_system_message st msg).context = { m0 with content := msg } :: rest)
    ∧ (∀ m0 rest, st.context = m0 :: rest → m0.role ≠ "system" →
        (set_system_message st msg).context = systemMessage msg :: m0 :: rest)
    ∧ (set_system_message st msg).totalContextTokens = st.totalContextTokens
    ∧ (set_system_message st msg).maxContextTokens = st.maxContextTokens
    ∧ (set_system_message st msg).maxToolCallIterations = st.maxToolCallIterations := by
  refine ⟨?_, ?_, ?_, ?_, ?_, ?_, ?_⟩
  · match h : st.context with
    | [] => simp [set_system_message, h, systemMessage]
    | m0 :: rest =>
      by_cases hr : m0.role = "system" <;>
        simp [set_system_message, h, hr, systemMessage]
  · intro h
    simp [set_system_message, h]
  · intro m0 rest h hr
    simp [set_system_message, h, hr]
  · intro m0 rest h hr
    simp [set_system_message, h, hr]
  · match h : st.context with
    | [] => simp [set_system_message, h]
    | m0 :: rest =>
      by_cases hr : m0.role = "system" <;> simp [set_system_message, h, hr]
  · match h : st.context with
    | [] => simp [set_system_message, h]
    | m0 :: rest =>
      by_cases hr : m0.role = "system" <;> simp [set_system_message, h, hr]
  · match h : st.context with
    | [] => simp [set_system_message, h]
    | m0 :: rest =>
      by_cases hr : m0.role = "system" <;> simp [set_system_message, h, hr]

/-- Witness for C9: replacing the content of an existing system message
at position 0 keeps the rest of the log unchanged. -/
theorem c9_set_system_message_witness :
    (set_system_message witnessState "new").context =
      { systemMessage "old" with content := "new" } :: [userMessage "u"] :=
  (c9_set_system_message witnessState "new").2.2.1 (systemMessage "old")
    [userMessage "u"] rfl rfl

/-- Every message surviving the trim loop was in the log it started
from. -/
theorem trimTail_mem (maxTok : Int) (l : List Message) (total : Int) :
    ∀ x ∈ (trimTail maxTok l total).1, x ∈ l := by
  induction l generalizing total with
  | nil => simp [trimTail]
  | cons m1 rest ih =>
    intro x hx
    by_cases h1 : total > maxTok
    · by_cases h2 : m1.role = "system"
      · simp only [trimTail, if_pos h1, if_pos h2] at hx
        exact hx
      · simp only [trimTail, if_pos h1, if_neg h2] at hx
        exact List.mem_cons_of_mem m1 (ih _ x hx)
    · simp only [trimTail, if_neg h1] at hx
      exact hx

/-- Appending a non-system message preserves the absence of system
messages after position 0. -/
theorem noSysTail_appendCtx (st : AgentState) (m : Message)
    (hm : m.role ≠ "system") (h : ∀ x ∈ st.context.tail, x.role ≠ "system") :
    ∀ x ∈ (appendCtx st m).context.tail, x.role ≠ "system" := by
  intro x hx
  cases hctx : st.context with
  | nil =>
    simp [appendCtx, hctx] at hx
  | cons m0 rest =>
    simp only [appendCtx, hctx] at hx
    simp only [List.cons_append, List.tail_cons, List.mem_append,
      List.mem_singleton] at hx
    rcases hx with hx | hx
    · exact h x (by rw [hctx]; exact hx)
    · rw [hx]; exact hm

/-- `set_system_message` preserves the absence of system messages after
position 0. -/
theorem noSysTail_set_system_message (st : AgentState) (s : String)
    (h : ∀ x ∈ st.context.tail, x.role ≠ "system") :
    ∀ x ∈ (set_system_message st s).context.tail, x.role ≠ "system" := by
  intro x hx
  cases hctx : st.context with
  | nil =>
    simp [set_system_message, hctx] at hx
  | cons m0 rest =>
    by_cases hr : m0.role = "system"
    · simp only [set_system_message, hctx, if_pos hr, List.tail_cons] at hx
      exact h x (by rw [hctx]; exact hx)
    · simp only [set_system_message, hctx, if_neg hr, List.tail_cons,
        List.mem_cons] at hx
      rcases hx with hx | hx
      · rw [hx]; exact hr
      · exact h x (by rw [hctx]; exact hx)

/-- `trim_context` preserves the absence of system messages after
position 0. -/
theorem noSysTail_trim_context (st : AgentState)
    (h : ∀ x ∈ st.context.tail, x.role ≠ "system") :
    ∀ x ∈ (trim_context st).context.tail, x.role ≠ "system" := by
  intro x hx
  cases hctx : st.context with
  | nil =>
    simp only [trim_context, hctx] at hx
    rw [hctx] at h
    exact h x hx
  | cons m0 rest =>
    simp only [trim_context, hctx, List.tail_cons] at hx
    have : x ∈ rest := trimTail_mem st.maxContextTokens rest st.totalContextTokens x hx
    exact h x (by rw [hctx]; exact this)

/-- Running any operation sequence whose appends are all non-system
messages keeps system messages out of every position after 0. -/
theorem runOps_noSysTail (ops : List AgentOp) :
    ∀ st : AgentState, (∀ m, AgentOp.append m ∈ ops → m.role ≠ "system") →
      (∀ x ∈ st.context.tail, x.role ≠ "system") →
      ∀ x ∈ (runOps ops st).context.tail, x.role ≠ "system" := by
  induction ops with
  | nil =>
    intro st _ hst
    exact hst
  | cons op rest ih =>
    intro st h hst
    have hrest : ∀ m, AgentOp.append m ∈ rest → m.role ≠ "system" :=
      fun m hm => h m (List.mem_cons_of_mem _ hm)
    have hst' : ∀ x ∈ (runOp st op).context.tail, x.role ≠ "system" := by
      cases op with
      | append m => exact noSysTail_appendCtx st m (h m (List.mem_cons_self _ _)) hst
      | trim => exact noSysTail_trim_context st hst
      | setSystem s => exact noSysTail_set_system_message st s hst
    exact ih (runOp st op) hrest hst'

/-- A log with no system message after position 0 holds at most one
system message in total. -/
theorem countP_system_le_one (l : List Message)
    (h : ∀ x ∈ l.tail, x.role ≠ "system") :
    l.countP (fun m => m.role == "system") ≤ 1 := by
  cases l with
  | nil => simp
  | cons m0 rest =>
    have hz : rest.countP (fun m => m.role == "system") = 0 := by
      rw [List.countP_eq_zero]
      intro a ha
      simpa using h a ha
    rw [List.countP_cons, hz]
    split <;> simp

/-- C2: starting from the empty log, any sequence of non-system appends,
`trim_context` and `set_system_message` operations leaves at most one
message with role `system`, and only at position 0; moreover
`trim_context` never changes the message at position 0, so a system
message once set is never evicted by trimming. -/
theorem c2_system_invariant (mi : Nat) (mt : Int) (ops : List AgentOp)
    (h : ∀ m, AgentOp.append m ∈ ops → m.role ≠ "system") :
    (∀ x ∈ (runOps ops (initialAgent mi mt)).context.tail, x.role ≠ "system")
    ∧ (runOps ops (initialAgent mi mt)).context.countP
        (fun m => m.role == "system") ≤ 1
    ∧ ∀ st : AgentState, (trim_context st).context.head? = st.context.head? := by
  have htail := runOps_noSysTail ops (initialAgent mi mt) h (by simp [initialAgent])
  refine ⟨htail, countP_system_le_one _ htail, ?_⟩
  intro st
  cases hctx : st.context with
  | nil => simp [trim_context, hctx]
  | cons m0 rest => simp [trim_context, hctx]

/-- Witness for C2: the invariant after a concrete operation
sequence. -/
theorem c2_system_invariant_witness :
    (∀ x ∈ (runOps witnessOps (initialAgent 5 100)).context.tail, x.role ≠ "system")
    ∧ (runOps witnessOps (initialAgent 5 100)).context.countP
        (fun m => m.role == "system") ≤ 1
    ∧ ∀ st : AgentState, (trim_context st).context.head? = st.context.head? := by
  refine c2_system_invariant 5 100 witnessOps ?_
  intro m hm
  simp only [witnessOps, List.mem_cons, List.not_mem_nil, or_false] at hm
  rcases hm with hm | hm | hm | hm
  · cases hm
  · injection hm with hm'
    rw [hm']
    decide
  · cases hm
  · cases hm

/-- Consuming one response shifts the pending last-assistant content. -/
theorem lastAnswer_cons (r : Response) (rest : List Response) (last : Option String) :
    lastAnswer (r :: rest) last = lastAnswer rest (some ((r.content).getD "")) := by
  cases rest with
  | nil => simp [lastAnswer]
  | cons x xs =>
    simp only [lastAnswer, List.getLast?_cons_cons]
    cases hg : (x :: xs).getLast? with
    | none => exact absurd (List.getLast?_eq_none_iff.mp hg) (by simp)
    | some y => rfl

/-- If every remaining response requests at least one tool call and
exactly `fuel` responses remain, the loop consumes all of them, performs
exactly `fuel` round trips, and returns the content of the last
assistant message without raising. -/
theorem sendLoop_all_tool_calls (tools : Registry)
    (parse : String → Except String Args) :
    ∀ (fuel : Nat) (responses : List Response) (last : Option String)
      (st : AgentState),
      responses.length = fuel → (∀ r ∈ responses, r.tool_calls ≠ []) →
      ∃ st', sendLoop tools parse fuel responses last st =
        .ok (lastAnswer responses last, st', fuel) := by
  intro fuel
  induction fuel with
  | zero =>
    intro responses last st hlen _
    have hnil : responses = [] := List.length_eq_zero.mp hlen
    subst hnil
    exact ⟨st, by simp [sendLoop, lastAnswer]⟩
  | succ fuel ih =>
    intro responses last st hlen hcalls
    match responses with
    | [] => simp at hlen
    | r :: rest =>
      have hr : r.tool_calls ≠ [] := hcalls r (List.mem_cons_self _ _)
      have hie : r.tool_calls.isEmpty = false := by
        cases hcs : r.tool_calls with
        | nil => exact absurd hcs hr
        | cons a l => rfl
      have hlen' : rest.length = fuel := by simpa using hlen
      have hcalls' : ∀ x ∈ rest, x.tool_calls ≠ [] :=
        fun x hx => hcalls x (List.mem_cons_of_mem _ hx)
      obtain ⟨st', hst'⟩ := ih rest (some ((r.content).getD ""))
        (runRound tools parse
          (appendCtx (trim_context (roundTokenUpdate st r))
            (assistantMessage ((r.content).getD "") r.tool_calls))
          r.tool_calls) hlen' hcalls'
      refine ⟨st', ?_⟩
      simp only [sendLoop, hie, Bool.false_eq_true, if_false]
      rw [hst', lastAnswer_cons]

/-- C3: when the iteration budget is `N ≥ 1` and every completion
response requests at least one tool call, `send_message` performs exactly
`N` completion round trips, returns without raising (`Except.ok`), and
its answer is the content of the last assistant message produced —
`content or ""`, possibly the empty string. -/
theorem c3_budget_exhaustion (tools : Registry)
    (parse : String → Except String Args) (responses : List Response)
    (st : AgentState) (msg : String) (N : Nat)
    (hN : st.maxToolCallIterations = N) (hpos : 1 ≤ N)
    (hlen : responses.length = N)
    (hcalls : ∀ r ∈ responses, r.tool_calls ≠ []) :
    ∃ st' rLast, responses.getLast? = some rLast
      ∧ send_message tools parse responses st msg =
          .ok ((rLast.content).getD "", st', N) := by
  obtain ⟨st', hst'⟩ := sendLoop_all_tool_calls tools parse N responses none
    (appendCtx st (userMessage msg)) hlen hcalls
  have hne : responses ≠ [] := by
    intro h
    rw [h] at hlen
    simp at hlen
    omega
  cases hg : responses.getLast? with
  | none => exact absurd (List.getLast?_eq_none_iff.mp hg) hne
  | some rLast =>
    refine ⟨st', rLast, rfl, ?_⟩
    have hla : lastAnswer responses none = (rLast.content).getD "" := by
      simp [lastAnswer, hg]
    rw [send_message, hN, hst', hla]

/-- Witness for C3: two responses, each requesting a `clear_context`
call, against a budget of 2: two round trips, answer `"second"`. -/
theorem c3_budget_exhaustion_witness :
    ∃ st' rLast, busyResponses.getLast? = some rLast
      ∧ send_message (builtinTools "T") parseEmptyObject busyResponses
          (initialAgent 2 4000) "go" =
          .ok ((rLast.content).getD "", st', 2) :=
  c3_budget_exhaustion (builtinTools "T") parseEmptyObject busyResponses
    (initialAgent 2 4000) "go" 2 rfl (by decide) rfl (by decide)

/-- Executing a batch of state-oblivious scheduled invocations appends
one determined tool message per invocation, in completion order, and
changes nothing else. -/
theorem executeScheduled_oblivious :
    ∀ (batch : List Scheduled) (st : AgentState),
      (∀ t ∈ batch, StateOblivious t.impl) →
      executeScheduled batch st =
        { st with context := st.context ++ batch.map (schedMessage st) } := by
  intro batch
  induction batch with
  | nil =>
    intro st _
    simp [executeScheduled]
  | cons t ts ih =>
    intro st h
    have ht : StateOblivious t.impl := h t (List.mem_cons_self _ _)
    have hts : ∀ x ∈ ts, StateOblivious x.impl :=
      fun x hx => h x (List.mem_cons_of_mem _ hx)
    have hstep : call_tool_safe t.impl t.args t.id t.fname st =
        { st with context := st.context ++ [schedMessage st t] } := by
      have h1 : (t.impl st t.args).1 = st := (ht st st t.args).1
      simp [call_tool_safe, appendCtx, schedMessage, h1]
    have hun : executeScheduled (t :: ts) st =
        executeScheduled ts (call_tool_safe t.impl t.args t.id t.fname st) := rfl
    rw [hun, hstep, ih _ hts]
    have hmaps :
        ts.map (schedMessage { st with context := st.context ++ [schedMessage st t] })
          = ts.map (schedMessage st) := by
      apply List.map_congr_left
      intro x hx
      have hx2 := ((hts x hx) { st with context := st.context ++ [schedMessage st t] }
        st x.args).2
      simp only [schedMessage] at hx2 ⊢
      rw [hx2]
    rw [hmaps]
    simp [List.append_assoc]

/-- C8 amended: when every scheduled implementation of the round neither
mutates the agent state nor depends on it, reversing the completion
order yields the same set of tool messages — each with identical content,
call id and tool name — appended after the unchanged prefix, differing
only in log position. (The hypothesis is necessary: implementations that
touch shared agent state, such as `clear_context` racing
`get_total_context_tokens`, can change contents or wipe messages, see
the counterexample.) -/
theorem c8_completion_order_amended (batch : List Scheduled) (st : AgentState)
    (h : ∀ t ∈ batch, StateOblivious t.impl) :
    ∃ ms, (executeScheduled batch st).context = st.context ++ ms
      ∧ (executeScheduled batch.reverse st).context = st.context ++ ms.reverse
      ∧ ms.reverse.Perm ms := by
  refine ⟨batch.map (schedMessage st), ?_, ?_, ?_⟩
  · rw [executeScheduled_oblivious batch st h]
  · have hrev : ∀ t ∈ batch.reverse, StateOblivious t.impl :=
      fun t ht => h t (List.mem_reverse.mp ht)
    rw [executeScheduled_oblivious batch.reverse st hrev, List.map_reverse]
  · exact List.reverse_perm _

/-- Witness for C8 amended: two constant stub invocations, executed
forwards and reversed. -/
theorem c8_completion_order_amended_witness :
    ∃ ms, (executeScheduled [stubSchedA, stubSchedB] (initialAgent 5 100)).context =
        (initialAgent 5 100).context ++ ms
      ∧ (executeScheduled ([stubSchedA, stubSchedB].reverse) (initialAgent 5 100)).context =
        (initialAgent 5 100).context ++ ms.reverse
      ∧ ms.reverse.Perm ms := by
  refine c8_completion_order_amended [stubSchedA, stubSchedB] (initialAgent 5 100) ?_
  intro t ht
  simp only [List.mem_cons, List.not_mem_nil, or_false] at ht
  rcases ht with ht | ht <;> rw [ht] <;> intro st st' args <;> exact ⟨rfl, rfl⟩

/-- C8, claim as stated is false: a round that schedules `clear_context`
(call id `c1`) and `get_total_context_tokens` (call id `c2`) produces the
tool messages `"Context cleared."` and `"0"` in one completion order, but
with the completion order reversed the `c2` message reads the pre-reset
estimate and is then wiped by the reset, so the rounds do not yield the
same set of tool messages by call id. -/
theorem c8_completion_order_refuted :
    (executeScheduled [schedClear, schedTot] stateC8).context =
      [toolMessage "c1" "clear_context" "Context cleared.",
       toolMessage "c2" "get_total_context_tokens" "0"]
    ∧ (executeScheduled ([schedClear, schedTot].reverse) stateC8).context =
      [toolMessage "c1" "clear_context" "Context cleared."]
    ∧ ¬ ((executeScheduled ([schedClear, schedTot].reverse) stateC8).context.Perm
        ((executeScheduled [schedClear, schedTot] stateC8).context)) := by
  exact ⟨by decide, by decide, by decide⟩

/-- C10: whatever the conversation state entering the round, once the
scheduled `clear_context` invocation runs, the log afterwards holds only
the tool messages appended after the reset — `clear_context`'s own
`"Context cleared."` reply and the later `get_total_context_tokens`
reply, which reads `"0"` — while the system message, all earlier
user/assistant messages, and even tool replies completed before the
reset are gone; the token estimate reads 0 until the next completion
response's `usage.total_tokens` overwrites it. -/
theorem c10_clear_context_round (st : AgentState) (c0 c1 c2 : String) :
    (executeScheduled (clearRoundBatch c0 c1 c2) st).context =
      [toolMessage c1 "clear_context" "Context cleared.",
       toolMessage c2 "get_total_context_tokens" "0"]
    ∧ (executeScheduled (clearRoundBatch c0 c1 c2) st).totalContextTokens = 0
    ∧ ∀ r : Response,
        (roundTokenUpdate (executeScheduled (clearRoundBatch c0 c1 c2) st) r).totalContextTokens
          = r.total_tokens := by
  have hz : toString (0 : Int) = "0" := rfl
  refine ⟨?_, ?_, ?_⟩
  · simp [clearRoundBatch, executeScheduled, call_tool_safe,
      GetTotalContextTokensTool.call, ClearContextTool.call, reset_context,
      appendCtx, toolContent, hz]
  · simp [clearRoundBatch, executeScheduled, call_tool_safe,
      GetTotalContextTokensTool.call, ClearContextTool.call, reset_context,
      appendCtx, toolContent]
  · intro r
    simp [roundTokenUpdate]
